import Mathlib

/-!
Verification of the periodic-task runner and pure helpers of
`roborock/util.py` (class `RepeatableTask`, functions `unpack_list` and
`parse_datetime_to_roborock_datetime`), via a shallow embedding.

The asyncio event loop is modelled as the set of live (armed, not yet
fired, not cancelled) timers created by `call_later`, each identified by a
fresh numeric id and carrying its delay.  The callback is modelled by its
outcome on one invocation: success with a value, a `RoborockException`
(the domain-expected error), or any other exception (carrying an opaque
numeric payload).  Exceptions that propagate are modelled with `Except`.
-/

/-- A live timer created by `loop.call_later`: its handle id and the delay
it was armed with. -/
structure Timer where
  id : Nat
  delay : Nat
deriving DecidableEq, Repr

/-- The scheduling facility (the asyncio event loop as `RepeatableTask`
uses it): a fresh-id counter and the list of live timers. -/
structure EventLoop where
  nextId : Nat
  pending : List Timer
deriving DecidableEq, Repr

/-- `loop.call_later(delay, cb)`: arms a new timer, returns its handle. -/
def call_later (l : EventLoop) (delay : Nat) : Nat × EventLoop :=
  (l.nextId, { nextId := l.nextId + 1, pending := l.pending ++ [⟨l.nextId, delay⟩] })

/-- `TimerHandle.cancel()`: the timer with that id is no longer live.
Cancelling an already fired or already cancelled handle is a no-op. -/
def timer_cancel (l : EventLoop) (i : Nat) : EventLoop :=
  { l with pending := l.pending.filter (fun t => t.id ≠ i) }

/-- The mutable fields of a `RepeatableTask` object: `interval` and
`_task` (the stored timer handle, `None` initially). -/
structure RepeatableTask where
  interval : Nat
  task : Option Nat
deriving DecidableEq, Repr

/-- A runner together with its event loop. -/
structure SysState where
  rt : RepeatableTask
  loop : EventLoop
deriving DecidableEq, Repr

/-- The outcome of one invocation of the injected callback: a value,
a `RoborockException`, or any other exception (opaque payload). -/
inductive CbOutcome (R : Type) where
  | ok (v : R)
  | roborockExc
  | otherExc (e : Nat)
deriving DecidableEq, Repr

/-- `RepeatableTask._run_task`:
`response = None; try: response = await self.callback()`
`except RoborockException: pass`;
`self._task = self.loop.call_later(self.interval, self._run_task_soon)`;
`return response`.  A non-Roborock exception propagates before the
`call_later` line runs, leaving the state untouched. -/
def run_task {R : Type} (cb : CbOutcome R) (s : SysState) :
    Except Nat (Option R) × SysState :=
  match cb with
  | CbOutcome.otherExc e => (Except.error e, s)
  | cb =>
      let response : Option R :=
        match cb with
        | CbOutcome.ok v => some v
        | _ => none
      let hl := call_later s.loop s.rt.interval
      (Except.ok response,
        { rt := { s.rt with task := some hl.1 }, loop := hl.2 })

/-- `RepeatableTask.cancel`: `if self._task: self._task.cancel()`.
The handle field itself is not assigned. -/
def cancel (s : SysState) : SysState :=
  match s.rt.task with
  | some i => { s with loop := timer_cancel s.loop i }
  | none => s

/-- `RepeatableTask.reset`: `self.cancel(); return await self._run_task()`. -/
def reset {R : Type} (cb : CbOutcome R) (s : SysState) :
    Except Nat (Option R) × SysState :=
  run_task cb (cancel s)

/-- Modelled from the spec: `reset` as section 4.1 words it, literally
`cancel()` immediately followed by `run_once()`. -/
def cancel_then_run_once {R : Type} (cb : CbOutcome R) (s : SysState) :
    Except Nat (Option R) × SysState :=
  run_task cb (cancel s)

/-- A runner object as constructed: `self._task = None`, fresh loop. -/
def initState (interval : Nat) : SysState :=
  { rt := { interval := interval, task := none }, loop := { nextId := 0, pending := [] } }

/-- C2: a `RoborockException` from the callback is swallowed by
`_run_task`: the invocation does not propagate any error and returns
`None`. -/
theorem c2_roborock_exception_swallowed (R : Type) (s : SysState) :
    (run_task (CbOutcome.roborockExc : CbOutcome R) s).1 = Except.ok none := by
  rfl

/-- C3: a non-Roborock exception propagates unmodified out of `_run_task`
and out of `reset`, and neither operation arms a new scheduled firing:
`_run_task` leaves the state untouched, and `reset` leaves `_task`, the
id counter and (up to cancellation) the pending timers as they were. -/
theorem c3_other_exception_propagates (R : Type) (e : Nat) (s : SysState) :
    run_task (CbOutcome.otherExc e : CbOutcome R) s = (Except.error e, s) ∧
    (reset (CbOutcome.otherExc e : CbOutcome R) s).1 = Except.error e ∧
    (reset (CbOutcome.otherExc e : CbOutcome R) s).2.rt.task = s.rt.task ∧
    (reset (CbOutcome.otherExc e : CbOutcome R) s).2.loop.nextId = s.loop.nextId ∧
    ∀ t ∈ (reset (CbOutcome.otherExc e : CbOutcome R) s).2.loop.pending,
      t ∈ s.loop.pending := by
  refine ⟨rfl, ?_, ?_, ?_, ?_⟩ <;>
      unfold reset cancel run_task timer_cancel <;>
      cases h : s.rt.task <;>
      simp [h]
  exact fun t ht _ => ht

/-- A concrete armed runner: one live timer with id 0 and delay 5,
`_task = 0`. -/
def exampleArmed : SysState :=
  { rt := { interval := 5, task := some 0 },
    loop := { nextId := 1, pending := [⟨0, 5⟩] } }

/-- C1 counterexample: the runner state holds no `last_result`.  The
post-state of `_run_task` is independent of the value the callback
produced, so no observer of the state can return the stored result; in
particular nothing is "stored as last_result" and there is no prior
value for a swallowed failure to preserve. -/
theorem c1_no_last_result_counterexample :
    ¬ ∃ f : SysState → Option Nat,
      ∀ (v : Nat) (s sNext : SysState) (r : Except Nat (Option Nat)),
        run_task (CbOutcome.ok v) s = (r, sNext) → f sNext = some v := by
  rintro ⟨f, hf⟩
  have h1 := hf 1 (initState 5) (run_task (CbOutcome.ok 1) (initState 5)).2
    (run_task (CbOutcome.ok 1) (initState 5)).1 rfl
  have h2 := hf 2 (initState 5) (run_task (CbOutcome.ok 1) (initState 5)).2
    (run_task (CbOutcome.ok 2) (initState 5)).1 rfl
  rw [h1] at h2
  simp at h2

/-- C1 amended: on success with value `v`, `_run_task` returns `v`; on a
swallowed `RoborockException` it returns `None`.  No result is stored:
the post-state after a success is exactly the post-state after a
swallowed failure, whatever `v` was. -/
theorem c1_result_returned_not_stored (R : Type) (v : R) (s : SysState) :
    (run_task (CbOutcome.ok v) s).1 = Except.ok (some v) ∧
    (run_task (CbOutcome.roborockExc : CbOutcome R) s).1 = Except.ok none ∧
    (run_task (CbOutcome.ok v) s).2 =
      (run_task (CbOutcome.roborockExc : CbOutcome R) s).2 :=
  ⟨rfl, rfl, rfl⟩

/-- C5 counterexample: from an armed runner, `cancel()` cancels the live
timer (no pending invocation remains) but does not clear `_task`: the
handle field still holds the cancelled handle instead of becoming
absent. -/
theorem c5_task_not_cleared_counterexample :
    (cancel exampleArmed).loop.pending = [] ∧
    (cancel exampleArmed).rt.task ≠ none := by
  decide

/-- C5 amended: `cancel()` cancels the underlying scheduled invocation
when a handle is present (no live timer with the stored handle's id
survives) and is a no-op on the runner's own fields either way, but it
never clears `_task`: the handle field keeps its prior value. -/
theorem c5_cancel_cancels_but_keeps_handle (s : SysState) :
    (cancel s).rt = s.rt ∧
    (cancel s).loop.nextId = s.loop.nextId ∧
    (cancel s).loop.pending =
      s.loop.pending.filter (fun t => some t.id ≠ s.rt.task) := by
  unfold cancel timer_cancel
  cases h : s.rt.task <;> simp [h]

/-- C6: `reset()` is exactly `cancel()` immediately followed by
`run_once()` (`_run_task`): same final state and the same returned
value or propagated error. -/
theorem c6_reset_equals_cancel_then_run_once (R : Type) (cb : CbOutcome R)
    (s : SysState) :
    reset cb s = cancel_then_run_once cb s ∧
    (reset cb s).1 = (run_task cb (cancel s)).1 ∧
    (reset cb s).2 = (run_task cb (cancel s)).2 :=
  ⟨rfl, rfl, rfl⟩

/-- C7: `cancel()` is idempotent: a second `cancel()` changes neither the
runner nor the event loop. -/
theorem c7_cancel_idempotent (s : SysState) :
    cancel (cancel s) = cancel s := by
  unfold cancel timer_cancel
  cases h : s.rt.task <;> simp [h, List.filter_filter]

/-- The operations that can act on a runner: a direct `_run_task`
invocation, `cancel()`, `reset()`, and the firing of a scheduled timer
(which removes the timer from the loop and runs `_run_task`). -/
inductive Op (R : Type) where
  | runOnce (cb : CbOutcome R)
  | cancelCall
  | resetCall (cb : CbOutcome R)
  | timerFire (i : Nat) (cb : CbOutcome R)
deriving DecidableEq, Repr

/-- The state reached after one operation (the returned or propagated
value is dropped).  A timer can only fire while it is live; firing
consumes it and then runs `_run_task` (via `_run_task_soon`). -/
def stepState {R : Type} (op : Op R) (s : SysState) : SysState :=
  match op with
  | Op.runOnce cb => (run_task cb s).2
  | Op.cancelCall => cancel s
  | Op.resetCall cb => (reset cb s).2
  | Op.timerFire i cb =>
      if s.loop.pending.any (fun t => t.id == i) then
        (run_task cb { s with loop := timer_cancel s.loop i }).2
      else s

/-- The state reached after a sequence of operations. -/
def runOps {R : Type} : List (Op R) → SysState → SysState
  | [], s => s
  | op :: rest, s => runOps rest (stepState op s)

/-- A direct `_run_task` call is benign only when no firing is pending
(`_run_task` never cancels the previously armed timer); `cancel`,
`reset` and timer firings are always allowed. -/
def safeOp {R : Type} (op : Op R) (s : SysState) : Bool :=
  match op with
  | Op.runOnce _ => s.loop.pending.isEmpty
  | _ => true

/-- Every operation of the trace is `safeOp` in the state it acts on. -/
def safeTrace {R : Type} : List (Op R) → SysState → Bool
  | [], _ => true
  | op :: rest, s => safeOp op s && safeTrace rest (stepState op s)

/-- At most one live timer, and when one exists `_task` holds its id. -/
def SinglePending (s : SysState) : Prop :=
  s.loop.pending = [] ∨
    ∃ i d, s.rt.task = some i ∧ s.loop.pending = [⟨i, d⟩]

lemma cancel_pending_nil (s : SysState) (h : SinglePending s) :
    (cancel s).loop.pending = [] := by
  unfold cancel timer_cancel
  rcases h with h | ⟨i, d, hi, hp⟩
  · cases ht : s.rt.task <;> simp [ht, h]
  · simp [hi, hp]

lemma run_task_single {R : Type} (cb : CbOutcome R) (s : SysState)
    (h : s.loop.pending = []) : SinglePending (run_task cb s).2 := by
  unfold run_task call_later
  cases cb with
  | otherExc e => exact Or.inl h
  | ok v => exact Or.inr ⟨s.loop.nextId, s.rt.interval, rfl, by simp [h]⟩
  | roborockExc => exact Or.inr ⟨s.loop.nextId, s.rt.interval, rfl, by simp [h]⟩

lemma stepState_single {R : Type} (op : Op R) (s : SysState)
    (hs : SinglePending s) (hop : safeOp op s = true) :
    SinglePending (stepState op s) := by
  cases op with
  | runOnce cb =>
      exact run_task_single cb s (by simpa [safeOp, List.isEmpty_iff] using hop)
  | cancelCall =>
      exact Or.inl (cancel_pending_nil s hs)
  | resetCall cb =>
      exact run_task_single cb (cancel s) (cancel_pending_nil s hs)
  | timerFire i cb =>
      simp only [stepState]
      by_cases hfire : s.loop.pending.any (fun t => t.id == i) = true
      · rw [if_pos hfire]
        refine run_task_single cb _ ?_
        rcases hs with h | ⟨j, d, hj, hp⟩
        · simp [h] at hfire
        · simp [hp] at hfire
          simp [timer_cancel, hp, hfire]
      · rw [if_neg hfire]
        exact hs

lemma runOps_single {R : Type} (ops : List (Op R)) (s : SysState)
    (hs : SinglePending s) (h : safeTrace ops s = true) :
    SinglePending (runOps ops s) := by
  induction ops generalizing s with
  | nil => exact hs
  | cons op rest ih =>
      rw [safeTrace, Bool.and_eq_true] at h
      exact ih (stepState op s) (stepState_single op s hs h.1) h.2

/-- C8 counterexample: two direct `_run_task` invocations in a row (the
second while the first one's timer is still armed) leave two live
scheduled invocations: `_run_task` overwrites `_task` without cancelling
the previously armed timer. -/
theorem c8_two_pending_counterexample :
    ¬ ((runOps [Op.runOnce (CbOutcome.ok (0 : Nat)),
          Op.runOnce (CbOutcome.ok 0)] (initState 5)).loop.pending.length ≤ 1) := by
  decide

/-- C8 amended: at most one live scheduled invocation exists in every
state reachable from a fresh runner by `cancel`, `reset`, timer firings,
and direct `_run_task` invocations made only while no firing is pending;
a direct `_run_task` call while a timer is armed breaks the invariant. -/
theorem c8_at_most_one_pending (R : Type) (interval : Nat)
    (ops : List (Op R)) (h : safeTrace ops (initState interval) = true) :
    (runOps ops (initState interval)).loop.pending.length ≤ 1 := by
  have hsp := runOps_single ops (initState interval) (Or.inl rfl) h
  rcases hsp with hp | ⟨i, d, _, hp⟩ <;> simp [hp]

/-- Witness for C8: a concrete safe trace (reset with success, then the
armed timer fires into a domain failure, then cancel). -/
theorem c8_at_most_one_pending_witness :
    safeTrace [Op.resetCall (CbOutcome.ok (7 : Nat)),
      Op.timerFire 0 CbOutcome.roborockExc, Op.cancelCall] (initState 5) = true ∧
    (runOps [Op.resetCall (CbOutcome.ok (7 : Nat)),
      Op.timerFire 0 CbOutcome.roborockExc, Op.cancelCall]
        (initState 5)).loop.pending.length ≤ 1 :=
  ⟨by decide, c8_at_most_one_pending Nat 5 _ (by decide)⟩

/-- Outcomes that `_run_task` survives: success or `RoborockException`. -/
def notFatal {R : Type} : CbOutcome R → Bool
  | CbOutcome.otherExc _ => false
  | _ => true

/-- The runner is armed: `_task` holds a handle and the loop's single
live timer is that handle, set to fire after `interval`. -/
def armed (s : SysState) : Bool :=
  match s.rt.task with
  | some i => decide (s.loop.pending = [⟨i, s.rt.interval⟩])
  | none => false

/-- One failed cycle: the armed timer fires and the callback raises the
domain-expected `RoborockException`. -/
def cycleFail (R : Type) (s : SysState) : SysState :=
  match s.rt.task with
  | some i => stepState (Op.timerFire i (CbOutcome.roborockExc : CbOutcome R)) s
  | none => s

/-- `n` consecutive failed cycles. -/
def failCycles (R : Type) : Nat → SysState → SysState
  | 0, s => s
  | n + 1, s => failCycles R n (cycleFail R s)

lemma armed_cycleFail (R : Type) (s : SysState) (h : armed s = true) :
    armed (cycleFail R s) = true := by
  unfold armed at h
  cases ht : s.rt.task with
  | none => rw [ht] at h; exact absurd h (by simp)
  | some i =>
      rw [ht] at h
      rw [decide_eq_true_eq] at h
      simp only [cycleFail, stepState, ht, h, run_task, timer_cancel, call_later]
      simp [armed]

lemma armed_failCycles (R : Type) (n : Nat) (s : SysState)
    (h : armed s = true) : armed (failCycles R n s) = true := by
  induction n generalizing s with
  | zero => exact h
  | succ n ih => exact ih (cycleFail R s) (armed_cycleFail R s h)

/-- C4: whenever `_run_task` ends in success or in a swallowed
`RoborockException`, it arms exactly one new timer — with delay
`interval` and a fresh handle id — and stores that handle in `_task`;
and from an armed runner, any number of consecutive domain-expected
failures leaves the runner armed again after each cycle. -/
theorem c4_reschedule_on_survivable_outcome (R : Type) (s : SysState)
    (cb : CbOutcome R) (n : Nat) (h : notFatal cb = true) :
    (run_task cb s).2.rt.task = some s.loop.nextId ∧
    (run_task cb s).2.loop.pending =
      s.loop.pending ++ [⟨s.loop.nextId, s.rt.interval⟩] ∧
    (!(armed s) || armed (failCycles R n s)) = true := by
  refine ⟨?_, ?_, ?_⟩
  · cases cb with
    | otherExc e => exact absurd h (by simp [notFatal])
    | ok v => rfl
    | roborockExc => rfl
  · cases cb with
    | otherExc e => exact absurd h (by simp [notFatal])
    | ok v => rfl
    | roborockExc => rfl
  · cases harm : armed s with
    | false => simp
    | true => simp [armed_failCycles R n s harm]

/-- Witness for C4: the armed example runner, a domain failure, three
failed cycles. -/
theorem c4_reschedule_on_survivable_outcome_witness :
    notFatal (CbOutcome.roborockExc : CbOutcome Nat) = true ∧
    ((run_task (CbOutcome.roborockExc : CbOutcome Nat) exampleArmed).2.rt.task =
        some exampleArmed.loop.nextId ∧
      (run_task (CbOutcome.roborockExc : CbOutcome Nat) exampleArmed).2.loop.pending =
        exampleArmed.loop.pending ++
          [⟨exampleArmed.loop.nextId, exampleArmed.rt.interval⟩] ∧
      (!(armed exampleArmed) || armed (failCycles Nat 3 exampleArmed)) = true) :=
  ⟨by decide,
    c4_reschedule_on_survivable_outcome Nat exampleArmed CbOutcome.roborockExc 3
      (by decide)⟩

/-- `unpack_list(value, size)`: `(value + [None] * size)[:size]`.  The
heterogeneous Python list is embedded by injecting the elements of
`value` into `Option`. -/
def unpack_list {R : Type} (value : List R) (size : Nat) : List (Option R) :=
  (value.map some ++ List.replicate size (none : Option R)).take size

/-- C9: for every list and every non-negative size, `unpack_list value
size` has length exactly `size` (including `size = 0`), and its element
at any index `i` within that length is `value[i]` when `i` is in range
of `value` and `None` otherwise (which is exactly `value[i]?`); reads
past `size` give nothing. -/
theorem c9_unpack_list_pads (R : Type) (value : List R) (size i : Nat) :
    (unpack_list value size).length = size ∧
    (unpack_list value size)[i]? =
      (if i < size then some value[i]? else none) := by
  constructor
  · simp [unpack_list]
  · by_cases h : i < size
    · rw [if_pos h, unpack_list, List.getElem?_take, if_pos h,
        List.getElem?_append]
      by_cases hv : i < value.length
      · rw [if_pos (by simpa using hv), List.getElem?_map,
          List.getElem?_eq_getElem hv]
        rfl
      · rw [if_neg (by simpa using hv), List.getElem?_replicate,
          if_pos (by simp only [List.length_map]; omega),
          List.getElem?_eq_none (by omega)]
    · rw [if_neg h]
      refine List.getElem?_eq_none ?_
      simp only [unpack_list, List.length_take]
      omega

/-- Witness for C9: a two-element list padded to length four, read at
index 3. -/
theorem c9_unpack_list_pads_witness :
    (unpack_list ([10, 20] : List Nat) 4).length = 4 ∧
      (unpack_list ([10, 20] : List Nat) 4)[3]? =
        (if 3 < 4 then some (([10, 20] : List Nat))[3]? else none) :=
  c9_unpack_list_pads Nat [10, 20] 4 3

/-- A Python `datetime` (all embedded values carry the same fixed-offset
`DEFAULT_TIME_ZONE`, so comparison is wall-clock lexicographic and
`timedelta(days=1)` advances the calendar day). -/
structure PyDateTime where
  year : Nat
  month : Nat
  day : Nat
  hour : Nat
  minute : Nat
  second : Nat
  microsecond : Nat
deriving DecidableEq, Repr

/-- Python `datetime` comparison for a common timezone: lexicographic on
(year, month, day, hour, minute, second, microsecond). -/
def dtLt (a b : PyDateTime) : Prop :=
  a.year < b.year ∨ (a.year = b.year ∧
  (a.month < b.month ∨ (a.month = b.month ∧
  (a.day < b.day ∨ (a.day = b.day ∧
  (a.hour < b.hour ∨ (a.hour = b.hour ∧
  (a.minute < b.minute ∨ (a.minute = b.minute ∧
  (a.second < b.second ∨ (a.second = b.second ∧
  a.microsecond < b.microsecond)))))))))))

instance dtLtDecidable (a b : PyDateTime) : Decidable (dtLt a b) := by
  unfold dtLt
  exact inferInstance

/-- Gregorian leap year, as `calendar.isleap`. -/
def isLeapYear (y : Nat) : Prop :=
  (y % 4 = 0 ∧ y % 100 ≠ 0) ∨ y % 400 = 0

instance isLeapYearDecidable (y : Nat) : Decidable (isLeapYear y) := by
  unfold isLeapYear
  exact inferInstance

/-- Length of a month in the proleptic Gregorian calendar. -/
def daysInMonth (y m : Nat) : Nat :=
  if m = 2 then (if isLeapYear y then 29 else 28)
  else if m = 4 ∨ m = 6 ∨ m = 9 ∨ m = 11 then 30
  else 31

/-- `dt + datetime.timedelta(days=1)`: advance the calendar day, rolling
over month and year ends. -/
def addOneDay (d : PyDateTime) : PyDateTime :=
  if d.day < daysInMonth d.year d.month then { d with day := d.day + 1 }
  else if d.month < 12 then { d with month := d.month + 1, day := 1 }
  else { d with year := d.year + 1, month := 1, day := 1 }

/-- `parse_datetime_to_roborock_datetime`, with the value of
`datetime.datetime.now(DEFAULT_TIME_ZONE)` passed explicitly: both
inputs are moved onto today's date with seconds and microseconds
zeroed; then if start > end, end gains a day, else if end < now both
gain a day. -/
def parse_datetime_to_roborock_datetime (start_datetime end_datetime now : PyDateTime) :
    PyDateTime × PyDateTime :=
  let s := { start_datetime with year := now.year, month := now.month, day := now.day, second := 0, microsecond := 0 }
  let e := { end_datetime with year := now.year, month := now.month, day := now.day, second := 0, microsecond := 0 }
  if dtLt e s then (s, addOneDay e)
  else if dtLt e now then (addOneDay s, addOneDay e)
  else (s, e)

lemma addOneDay_second (d : PyDateTime) : (addOneDay d).second = d.second := by
  unfold addOneDay
  split_ifs <;> rfl

lemma addOneDay_microsecond (d : PyDateTime) :
    (addOneDay d).microsecond = d.microsecond := by
  unfold addOneDay
  split_ifs <;> rfl

lemma not_dtLt_addOneDay_same_date (a b : PyDateTime) (hy : b.year = a.year)
    (hm : b.month = a.month) (hd : b.day = a.day) : ¬ dtLt (addOneDay b) a := by
  unfold dtLt addOneDay
  split_ifs <;> dsimp <;> omega

lemma not_dtLt_addOneDay_both (a b : PyDateTime) (hy : a.year = b.year)
    (hm : a.month = b.month) (hd : a.day = b.day) (h : ¬ dtLt b a) :
    ¬ dtLt (addOneDay b) (addOneDay a) := by
  have hdim : daysInMonth a.year a.month = daysInMonth b.year b.month := by
    rw [hy, hm]
  unfold dtLt at h ⊢
  unfold addOneDay
  split_ifs <;> dsimp <;> omega

/-- C10: for all inputs and any current time, the returned pair
satisfies start ≤ end (not end < start), and both returned datetimes
have `second = 0` and `microsecond = 0`. -/
theorem c10_parse_datetime_ordered_and_zeroed (sdt edt now : PyDateTime) :
    ¬ dtLt (parse_datetime_to_roborock_datetime sdt edt now).2
        (parse_datetime_to_roborock_datetime sdt edt now).1 ∧
    (parse_datetime_to_roborock_datetime sdt edt now).1.second = 0 ∧
    (parse_datetime_to_roborock_datetime sdt edt now).1.microsecond = 0 ∧
    (parse_datetime_to_roborock_datetime sdt edt now).2.second = 0 ∧
    (parse_datetime_to_roborock_datetime sdt edt now).2.microsecond = 0 := by
  unfold parse_datetime_to_roborock_datetime
  dsimp only
  split_ifs with h1 h2 <;>
      refine ⟨?_, by simp [addOneDay_second], by simp [addOneDay_microsecond],
        by simp [addOneDay_second], by simp [addOneDay_microsecond]⟩
  · exact not_dtLt_addOneDay_same_date _ _ rfl rfl rfl
  · exact not_dtLt_addOneDay_both _ _ rfl rfl rfl h1
  · exact h1
